import Mathlib

/-!
Verification of the otp-kuroko build-and-publish action.

The development shallowly embeds the TypeScript sources: the patch
selector (maybePatch / maybePatchDarwin / maybePatchCatalina /
maybePatchAll and the alternative maybeApplyPatch), the artifact
publisher (archive, sha256), the release registry client (getRelease,
createRelease, getOrCreateRelease, getAsset, uploadAsset, uploadAssets)
and the orchestrator loop (run in src/index.ts).

JavaScript numbers that may be NaN or undefined are embedded as
Option Nat, with none standing for NaN or undefined; JS comparison
operators, which are false on NaN, become the jlt / jle / jeq helpers.
External collaborators (filesystem, tar, shasum, the registry HTTP API)
are passed in as explicit data or response values, following the
interface contract in section 6 of the specification.
-/

namespace OtpKuroko

/-- JS strict less-than on possibly-NaN numbers: false when either side is NaN. -/
def jlt : Option Nat → Option Nat → Bool
  | some a, some b => decide (a < b)
  | _, _ => false

/-- JS less-or-equal on possibly-NaN numbers: false when either side is NaN. -/
def jle : Option Nat → Option Nat → Bool
  | some a, some b => decide (a ≤ b)
  | _, _ => false

/-- JS equality of a possibly-NaN number with a numeric literal: false on NaN. -/
def jeq : Option Nat → Nat → Bool
  | some a, n => decide (a = n)
  | none, _ => false

/-- JS idiom x || 0: NaN and undefined coerce to 0. -/
def orZero : Option Nat → Nat
  | some a => a
  | none => 0

/-- JS truthiness test !assetId: undefined and 0 are falsy. -/
def jsFalsyNatOpt : Option Nat → Bool
  | none => true
  | some n => decide (n = 0)

/-- The replace of the leading OTP- tag in maybePatch, on the character list. -/
def stripOTP : List Char → List Char
  | 'O' :: 'T' :: 'P' :: '-' :: rest => rest
  | cs => cs

/-- split on the dot character, as String.prototype.split with a one-character separator. -/
def splitOnDot : List Char → List (List Char)
  | [] => [[]]
  | c :: rest =>
    if c = '.' then [] :: splitOnDot rest
    else
      match splitOnDot rest with
      | [] => [[c]]
      | g :: gs => (c :: g) :: gs

/-- Value of a list of decimal digits. -/
def digitsToNat (ds : List Char) : Nat :=
  ds.foldl (fun acc c => acc * 10 + (c.toNat - 48)) 0

/-- JS parseInt(s, 10) on a version component: the longest leading run of
digits, or NaN (none) when there is no leading digit. -/
def parseIntJS (cs : List Char) : Option Nat :=
  let ds := cs.takeWhile Char.isDigit
  if ds.isEmpty then none else some (digitsToNat ds)

/-- The destructuring const [major, minor, ...rest] of the version string
after removing a leading OTP- tag, splitting on dots and mapping parseInt. -/
def parseTriple (otpVersion : String) : Option Nat × Option Nat × List (Option Nat) :=
  let comps := (splitOnDot (stripOTP otpVersion.toList)).map parseIntJS
  (comps.headD none, (comps.drop 1).headD none, comps.drop 2)

/-- The patches the selector can pick (payloads are opaque diffs). -/
inductive Patch
  | wxPtr
  | catalinaNoWeakImports
  | zlib
deriving DecidableEq, Repr

/-- Guard of maybePatchDarwin: 17 <= major && major <= 19. -/
def darwinCond (major : Option Nat) : Bool :=
  jle (some 17) major && jle major (some 19)

/-- Guard of maybePatchCatalina:
(19 < major && major < 23) || (major == 19 && 1 < minor)
|| (major == 22 && minor == 3 && (rest[0] || 0) < 1). -/
def catalinaCond (major minor : Option Nat) (rest : List (Option Nat)) : Bool :=
  (jlt (some 19) major && jlt major (some 23)) ||
  (jeq major 19 && jlt (some 1) minor) ||
  (jeq major 22 && jeq minor 3 && decide (orZero (rest.headD none) < 1))

/-- Guard of maybePatchAll: 17 <= major && major <= 19. -/
def allCond (major : Option Nat) : Bool :=
  jle (some 17) major && jle major (some 19)

/-- maybePatch, reported as the ordered list of patches it applies:
on darwin it runs maybePatchDarwin then maybePatchCatalina, and on every
platform it finally runs maybePatchAll. -/
def selectPatches (platform : String) (major minor : Option Nat)
    (rest : List (Option Nat)) : List Patch :=
  (if platform = "darwin" then
    (if darwinCond major then [Patch.wxPtr] else []) ++
    (if catalinaCond major minor rest then [Patch.catalinaNoWeakImports] else [])
  else []) ++
  (if allCond major then [Patch.zlib] else [])

/-- maybePatch from the version string: parse the triple, then select. -/
def maybePatch (platform : String) (otpVersion : String) : List Patch :=
  let t := parseTriple otpVersion
  selectPatches platform t.1 t.2.1 t.2.2

/-- Early-return guard of maybeApplyPatch: the patch is skipped when
platform() !== "darwin" || 23 <= major || (major === 22 && minor === 3 && 1 <= rest[0]). -/
def maybeApplyPatchSkip (platform : String) (major minor : Option Nat)
    (rest : List (Option Nat)) : Bool :=
  !(decide (platform = "darwin")) || jle (some 23) major ||
  (jeq major 22 && jeq minor 3 && jle (some 1) (rest.headD none))

/-- Whether maybeApplyPatch applies its Catalina patch. -/
def maybeApplyPatchApplies (platform : String) (major minor : Option Nat)
    (rest : List (Option Nat)) : Bool :=
  !(maybeApplyPatchSkip platform major minor rest)

/-- path.join of a directory and a file name; joining with an empty
directory yields the bare name. -/
def pathJoinJS (a b : String) : String :=
  if a = "" then b else a ++ "/" ++ b

/-- Characters of the last path component (after the last slash). -/
def baseChars (cs : List Char) : List Char :=
  (cs.reverse.takeWhile (fun c => c != '/')).reverse

/-- Characters of the directory part (before the last slash). -/
def dirChars (cs : List Char) : List Char :=
  match cs.reverse.dropWhile (fun c => c != '/') with
  | [] => []
  | _ :: rest => rest.reverse

/-- path.basename of a path string. -/
def baseOf (p : String) : String := String.mk (baseChars p.toList)

/-- path.parse dir field of a path string. -/
def dirOf (p : String) : String := String.mk (dirChars p.toList)

/-- path.basename(base, ext): removes ext when it is a proper suffix of base. -/
def basenameDropExt (base ext : String) : String :=
  if base ≠ ext ∧ ext.toList.isSuffixOf base.toList then
    String.mk (base.toList.take (base.toList.length - ext.toList.length))
  else base

/-- Whether an Except value is a success. -/
def exceptIsOk {ε α : Type} : Except ε α → Bool
  | .ok _ => true
  | .error _ => false

/-- A directory entry as returned by readdirSync with file types. -/
structure Dirent where
  name : String
  isDirectory : Bool
deriving DecidableEq, Repr

/-- The names of the top-level subdirectories of the release directory:
readdirSync(...).filter(d => d.isDirectory()).map(d => d.name). -/
def subDirNames (entries : List Dirent) : List String :=
  (entries.filter (fun d => d.isDirectory)).map (fun d => d.name)

/-- Failures archive can raise. -/
inductive ArchiveError
  | noSubDirectory (dir : String)
  | tooManySubDirectories (dir : String) (names : List String)
  | tarFailed
deriving DecidableEq, Repr

/-- Observable outcome of one archive call: its return value or error, the
working directory of the process when the call ends, and the tar
invocations it made as (working directory, destination path, path argument). -/
structure ArchiveOutcome where
  result : Except ArchiveError String
  finalCwd : String
  tarCalls : List (String × String × String)
deriving Repr

/-- archive(assetName): reads the subdirectories of cwd/release, requires
exactly one, enters it, runs tar -zcf archivedPath . there, returns to the
saved working directory and returns the archive path.  The filesystem
listing and the tar exit status are passed in as data; on a tar failure
the error propagates before the working directory is restored. -/
def archive (cwd0 : String) (releaseEntries : List Dirent) (tarOk : Bool)
    (assetName : String) : ArchiveOutcome :=
  let currentWorkingDirectory := cwd0
  let releaseDirectory := pathJoinJS currentWorkingDirectory "release"
  let subDirectories := subDirNames releaseEntries
  if subDirectories.length < 1 then
    { result := .error (.noSubDirectory releaseDirectory), finalCwd := cwd0, tarCalls := [] }
  else if 1 < subDirectories.length then
    { result := .error (.tooManySubDirectories releaseDirectory subDirectories),
      finalCwd := cwd0, tarCalls := [] }
  else
    let subDirectory := pathJoinJS releaseDirectory (subDirectories.headD "")
    let archivedPath := pathJoinJS releaseDirectory assetName
    if tarOk then
      { result := .ok archivedPath, finalCwd := currentWorkingDirectory,
        tarCalls := [(subDirectory, archivedPath, ".")] }
    else
      { result := .error .tarFailed, finalCwd := subDirectory,
        tarCalls := [(subDirectory, archivedPath, ".")] }

/-- buffer.split(" ", 1)[0]: the part of the string before the first space. -/
def firstSpaceToken (s : String) : String :=
  String.mk (s.toList.takeWhile (fun c => c != ' '))

/-- Observable outcome of one sha256 call: the returned sidecar path or the
propagated error, and the files written as (path, content). -/
structure Sha256Outcome where
  result : Except String String
  written : List (String × String)
deriving Repr

/-- sha256(archivedPath): derives the sidecar name by replacing a .tar.gz
suffix of the base name with .sha256.txt, collects the digest tool output
into a buffer (passed in as toolOutput; error means the tool could not be
invoked), takes the part of the buffer before the first space, writes it
to the sidecar file and returns the sidecar path. -/
def sha256 (archivedPath : String) (toolOutput : Except String String) : Sha256Outcome :=
  let d := dirOf archivedPath
  let b := baseOf archivedPath
  let sha256FileName := basenameDropExt b ".tar.gz" ++ ".sha256.txt"
  let sha256FilePath := pathJoinJS d sha256FileName
  match toolOutput with
  | .error e => { result := .error e, written := [] }
  | .ok buffer =>
      let sha := firstSpaceToken buffer
      { result := .ok sha256FilePath, written := [(sha256FilePath, sha)] }

/-- Promise.all over settled upload results: rejects with the first
rejection, resolves otherwise. -/
def promiseAll (rs : List (Except String Unit)) : Except String Unit :=
  match rs.find? (fun r => !(exceptIsOk r)) with
  | some (.error e) => .error e
  | _ => .ok ()

/-- uploadAssets(octokit, uploadUrl, assetPaths): maps each path to a
callback that computes the base name and calls uploadAsset, but the
callback body does not return the upload promise, so the value each map
entry contributes to Promise.all is the already-settled undefined; the
second component records the uploads that were started as (name, path). -/
def uploadAssets (upload : String → String → String → Except String Unit)
    (uploadUrl : String) (assetPaths : List String) :
    Except String Unit × List (String × String) :=
  (promiseAll (assetPaths.map (fun assetPath =>
      let assetName := baseOf assetPath
      let _ := upload uploadUrl assetName assetPath
      Except.ok ())),
   assetPaths.map (fun assetPath => (baseOf assetPath, assetPath)))

/-- Modelled from the spec, for comparison with uploadAssets: section 4.5
says an upload failure is a fatal UploadError for the version, so the
intended uploadAssets awaits every started upload and propagates the
first failure. -/
def uploadAssetsSpec (upload : String → String → String → Except String Unit)
    (uploadUrl : String) (assetPaths : List String) : Except String Unit :=
  promiseAll (assetPaths.map (fun assetPath => upload uploadUrl (baseOf assetPath) assetPath))

/-- An error response of the registry API; status is absent when the
failure carries no HTTP status. -/
structure ApiError where
  status : Option Nat
deriving DecidableEq, Repr

/-- Errors of the release registry client. -/
inductive RegErr
  | unexpected (e : ApiError)
deriving DecidableEq, Repr

/-- getRelease: turns a lookup-by-tag response into some record on success,
none on a 404, and re-raises anything else as an unexpected error. -/
def getRelease (resp : Except ApiError (Nat × String)) :
    Except RegErr (Option (Nat × String)) :=
  match resp with
  | .ok idUrl => .ok (some idUrl)
  | .error e => if e.status ≠ some 404 then .error (.unexpected e) else .ok none

/-- The remote registry, modelled from the interface contract in section 6:
release records keyed by (owner, repo, tag) with a fresh-id counter. -/
structure RegistryState where
  releases : List ((String × String × String) × (Nat × String))
  nextId : Nat
deriving DecidableEq, Repr

/-- GET release-by-tag of the section 6 contract: 200 with the record when
a release with the key exists, 404 otherwise. -/
def lookupByTag (st : RegistryState) (k : String × String × String) :
    Except ApiError (Nat × String) :=
  match st.releases.find? (fun r => decide (r.1 = k)) with
  | some r => .ok r.2
  | none => .error ⟨some 404⟩

/-- POST create-release of the section 6 contract: registers a fresh id
under the key and returns the new record. -/
def createReleaseApi (st : RegistryState) (k : String × String × String) :
    (Nat × String) × RegistryState :=
  ((st.nextId, "upload-url"),
   { releases := st.releases ++ [(k, (st.nextId, "upload-url"))], nextId := st.nextId + 1 })

/-- getOrCreateRelease: the found release, or else the created one; the
last component counts the creation calls issued. -/
def getOrCreateRelease (st : RegistryState) (k : String × String × String) :
    Except RegErr ((Nat × String) × RegistryState × Nat) :=
  match getRelease (lookupByTag st k) with
  | .error e => .error e
  | .ok (some r) => .ok (r, st, 0)
  | .ok none =>
      let c := createReleaseApi st k
      .ok (c.1, c.2, 1)

/-- getAsset: assets.find(asset => asset.name === assetName) and then the
optional id of the found record, over the listed (id, name) assets. -/
def getAsset (assets : List (Nat × String)) (assetName : String) : Option Nat :=
  (assets.find? (fun asset => decide (asset.2 = assetName))).map Prod.fst

/-- The per-version stages the orchestrator loop body invokes, in the
order they appear in run. -/
inductive Stage
  | setup
  | release
  | assetLookup
  | makeAsset
  | upload
deriving DecidableEq, Repr

/-- Terminal success of one version: published, or skipped because the
asset already exists. -/
inductive Outcome
  | published
  | skipped
deriving DecidableEq, Repr

/-- The external operations the loop body awaits, as fallible calls.
setupR is the git reset / checkout / clean sequence, releaseR is
getOrCreateRelease, assetR is getAsset, makeAssetR is makeAsset (patch,
build, archive, checksum), uploadR is uploadAssets. -/
structure PipelineEnv where
  setupR : String → Except String Unit
  releaseR : String → Except String (Nat × String)
  assetR : Nat → String → Except String (Option Nat)
  makeAssetR : String → Except String (String × String)
  uploadR : String → List String → Except String Unit

/-- What one iteration of the loop body produced: its result (or first
uncaught error) and the stages it invoked, in order. -/
structure VersionRun where
  result : Except String Outcome
  trace : List Stage
deriving Repr

/-- The body of the per-version loop in run: setup, release resolution,
asset lookup, then either skip (truthy asset id) or build and upload. -/
def processVersion (env : PipelineEnv) (assetName otpVersion : String) : VersionRun :=
  match env.setupR otpVersion with
  | .error e => { result := .error e, trace := [.setup] }
  | .ok () =>
    match env.releaseR otpVersion with
    | .error e => { result := .error e, trace := [.setup, .release] }
    | .ok (releaseId, uploadUrl) =>
      match env.assetR releaseId assetName with
      | .error e => { result := .error e, trace := [.setup, .release, .assetLookup] }
      | .ok assetId =>
        if jsFalsyNatOpt assetId then
          match env.makeAssetR otpVersion with
          | .error e =>
              { result := .error e, trace := [.setup, .release, .assetLookup, .makeAsset] }
          | .ok (archivedPath, sha256Path) =>
            match env.uploadR uploadUrl [archivedPath, sha256Path] with
            | .error e =>
                { result := .error e,
                  trace := [.setup, .release, .assetLookup, .makeAsset, .upload] }
            | .ok () =>
                { result := .ok .published,
                  trace := [.setup, .release, .assetLookup, .makeAsset, .upload] }
        else
          { result := .ok .skipped, trace := [.setup, .release, .assetLookup] }

/-- The log entry the loop writes for one version: the outcome, or the
caught error logged with the version identifier. -/
inductive VersionLog
  | done (o : Outcome)
  | failed (e : String)
deriving DecidableEq, Repr

/-- The catch of the loop body turns the iteration result into a log entry. -/
def logOf : Except String Outcome → VersionLog
  | .ok o => .done o
  | .error e => .failed e

/-- The for-await loop of run: every iteration catches its own errors and
the loop always advances to the next version. -/
def runLoop (env : PipelineEnv) (assetName : String) : List String → List (String × VersionLog)
  | [] => []
  | v :: vs =>
      (v, logOf (processVersion env assetName v).result) :: runLoop env assetName vs

/-- Result of the whole run: the per-version log when the pre-loop part
succeeded, or a failed run (setFailed) when it threw. -/
inductive RunResult
  | completed (log : List (String × VersionLog))
  | failedRun (msg : String)
deriving DecidableEq, Repr

/-- run: the outer try resolves configuration, the asset name and the
version list (preLoop); an error there fails the whole run, and otherwise
the per-version loop runs to completion. -/
def run (preLoop : Except String (String × List String)) (env : PipelineEnv) : RunResult :=
  match preLoop with
  | .error e => .failedRun e
  | .ok (assetName, otpVersions) => .completed (runLoop env assetName otpVersions)

theorem jlt_none_left (b : Option Nat) : jlt none b = false := by
  cases b <;> rfl

theorem jlt_none_right (b : Option Nat) : jlt b none = false := by
  cases b <;> rfl

theorem jle_none_left (b : Option Nat) : jle none b = false := by
  cases b <;> rfl

theorem jle_none_right (b : Option Nat) : jle b none = false := by
  cases b <;> rfl

theorem jeq_none (n : Nat) : jeq none n = false := rfl

/-- C1: at the 22.3.1 boundary on darwin the code diverges from the claim:
the guard of maybePatchCatalina already matches major 22 through its
19 < major < 23 disjunct, so the Catalina patch is applied to the triple
(22, 3, [1]), while the alternative implementation maybeApplyPatch, whose
comment excludes versions at or above 22.3.1, does not apply it there;
both match (22, 3, [0]), and neither matches (23, 0, []) on any platform. -/
theorem maybePatchCatalina_applies_at_22_3_1 :
    catalinaCond (some 22) (some 3) [some 1] = true ∧
    maybeApplyPatchApplies "darwin" (some 22) (some 3) [some 1] = false ∧
    maybePatch "darwin" "OTP-22.3.1" = [Patch.catalinaNoWeakImports] ∧
    catalinaCond (some 22) (some 3) [some 0] = true ∧
    maybeApplyPatchApplies "darwin" (some 22) (some 3) [some 0] = true ∧
    catalinaCond (some 23) (some 0) [] = false ∧
    (∀ platform : String, maybeApplyPatchApplies platform (some 23) (some 0) [] = false) := by
  refine ⟨by decide, by decide, by decide, by decide, by decide, by decide, ?_⟩
  intro platform
  simp [maybeApplyPatchApplies, maybeApplyPatchSkip, jle]

/-- C2 counterexample: in the version 20.x the minor component is
non-numeric and parses to not-a-number, every bound comparison against it
is false, yet the Catalina rule still matches through its major-only
disjunct and its patch is applied on darwin, in both implementations; so
a rule involving an unparsable component is not always skipped. -/
theorem nonnumeric_minor_rule_still_applies :
    parseTriple "OTP-20.x" = (some 20, none, []) ∧
    catalinaCond (some 20) none [] = true ∧
    maybePatch "darwin" "OTP-20.x" = [Patch.catalinaNoWeakImports] ∧
    maybeApplyPatchApplies "darwin" (some 20) none [] = true := by
  refine ⟨by decide, by decide, by decide, by decide⟩

/-- C2 amended: a non-numeric component parses to not-a-number and every
bound comparison against it evaluates to false (never an error), so a
rule is never matched through a disjunct comparing that component; in
particular when every component is unparsable the selector picks no patch
at all; but a rule may still match through a disjunct not involving the
component, and in maybeApplyPatch the false comparisons of the negated
skip guard make the patch be applied rather than skipped. -/
theorem nan_comparisons_false_and_guarded_rules_skip :
    (∀ b : Option Nat, jlt none b = false ∧ jlt b none = false ∧
      jle none b = false ∧ jle b none = false) ∧
    (∀ n : Nat, jeq none n = false) ∧
    (∀ (platform : String) (rest : List (Option Nat)),
      selectPatches platform none none rest = []) ∧
    maybeApplyPatchApplies "darwin" none none [] = true := by
  refine ⟨fun b => ⟨jlt_none_left b, jlt_none_right b, jle_none_left b, jle_none_right b⟩,
    fun n => jeq_none n, ?_, by decide⟩
  intro platform rest
  simp [selectPatches, darwinCond, catalinaCond, allCond, jlt_none_left, jlt_none_right,
    jle_none_left, jle_none_right, jeq_none]

/-- C5: with 17 <= major <= 19 on darwin the selector applies all matching
rules in the declared order, the darwin-specific wx pointer patch first
and the cross-platform zlib patch last, and the zlib rule matches on
every platform for such versions. -/
theorem selectPatches_all_matching_in_declared_order
    (major minor : Option Nat) (rest : List (Option Nat)) (m : Nat)
    (hm : major = some m) (h17 : 17 ≤ m) (h19 : m ≤ 19) :
    (selectPatches "darwin" major minor rest).head? = some Patch.wxPtr ∧
    (selectPatches "darwin" major minor rest).getLast? = some Patch.zlib ∧
    Patch.wxPtr ∈ selectPatches "darwin" major minor rest ∧
    Patch.zlib ∈ selectPatches "darwin" major minor rest ∧
    (∀ platform : String, Patch.zlib ∈ selectPatches platform major minor rest) := by
  subst hm
  have hdw : darwinCond (some m) = true := by
    simp [darwinCond, jle, h17, h19]
  have hall : allCond (some m) = true := by
    simp [allCond, jle, h17, h19]
  have hmain : ∀ platform : String, selectPatches platform (some m) minor rest =
      (if platform = "darwin" then
        [Patch.wxPtr] ++
          (if catalinaCond (some m) minor rest then [Patch.catalinaNoWeakImports] else [])
      else []) ++ [Patch.zlib] := by
    intro platform
    simp [selectPatches, hdw, hall]
  cases hc : catalinaCond (some m) minor rest with
  | false => refine ⟨?_, ?_, ?_, ?_, fun platform => ?_⟩ <;> simp [hmain, hc]
  | true => refine ⟨?_, ?_, ?_, ?_, fun platform => ?_⟩ <;> simp [hmain, hc]

/-- Evaluation of the C5 order theorem at the triple (18, none, []). -/
theorem selectPatches_all_matching_in_declared_order_witness :
    (selectPatches "darwin" (some 18) none []).head? = some Patch.wxPtr ∧
    (selectPatches "darwin" (some 18) none []).getLast? = some Patch.zlib ∧
    Patch.wxPtr ∈ selectPatches "darwin" (some 18) none [] ∧
    Patch.zlib ∈ selectPatches "darwin" (some 18) none [] ∧
    (∀ platform : String, Patch.zlib ∈ selectPatches platform (some 18) none []) :=
  selectPatches_all_matching_in_declared_order (some 18) none [] 18 rfl (by decide) (by decide)

/-- A pipeline environment whose setup stage fails for the version V1 and
whose stages succeed otherwise. -/
def envW : PipelineEnv where
  setupR := fun v => if v = "V1" then .error "boom" else .ok ()
  releaseR := fun _ => .ok (1, "upload-url")
  assetR := fun _ _ => .ok none
  makeAssetR := fun _ => .ok ("otp.tar.gz", "otp.sha256.txt")
  uploadR := fun _ _ => .ok ()

/-- A pipeline environment whose asset lookup finds an existing asset. -/
def envSkip : PipelineEnv where
  setupR := fun _ => .ok ()
  releaseR := fun _ => .ok (5, "upload-url")
  assetR := fun _ _ => .ok (some 7)
  makeAssetR := fun _ => .ok ("otp.tar.gz", "otp.sha256.txt")
  uploadR := fun _ _ => .ok ()

/-- C3: an error in the processing of the first version is caught by the
loop, logged against that version, and the second version is processed
exactly as its own stages dictate; only a pre-loop error fails the run. -/
theorem run_isolates_per_version_failures :
    (∀ (env : PipelineEnv) (assetName v1 v2 e : String),
      (processVersion env assetName v1).result = .error e →
      run (.ok (assetName, [v1, v2])) env =
        .completed [(v1, .failed e), (v2, logOf (processVersion env assetName v2).result)]) ∧
    (∀ (env : PipelineEnv) (msg : String), run (.error msg) env = .failedRun msg) := by
  constructor
  · intro env assetName v1 v2 e h1
    simp [run, runLoop, logOf, h1]
  · intro env msg
    rfl

/-- Evaluation of the C3 isolation theorem on a two-version run whose
first version fails during setup. -/
theorem run_isolates_per_version_failures_witness :
    run (.ok ("a.tar.gz", ["V1", "V2"])) envW =
      .completed [("V1", .failed "boom"), ("V2", .done .published)] :=
  run_isolates_per_version_failures.1 envW "a.tar.gz" "V1" "V2" "boom" rfl

theorem find?_not_ok_map_ok (paths : List String) :
    (paths.map (fun _ => (Except.ok () : Except String Unit))).find?
      (fun r => !(exceptIsOk r)) = none := by
  induction paths with
  | nil => rfl
  | cons p ps ih => simp [List.find?, exceptIsOk, ih]

/-- C4: the map callback inside uploadAssets does not return the upload
promise, so Promise.all resolves no matter what the individual uploads
do: uploadAssets always succeeds, even when an upload fails, although it
does start an upload of each file under its base name; the intended
behavior modelled from the spec propagates the failure instead. -/
theorem uploadAssets_resolves_without_awaiting_uploads :
    (∀ (upload : String → String → String → Except String Unit) (url : String)
        (assetPaths : List String),
      (uploadAssets upload url assetPaths).1 = .ok () ∧
      (uploadAssets upload url assetPaths).2 =
        assetPaths.map (fun p => (baseOf p, p))) ∧
    (uploadAssets (fun _ _ _ => .error "upload failed") "u" ["release/otp.tar.gz"]).1 =
      .ok () ∧
    uploadAssetsSpec (fun _ _ _ => .error "upload failed") "u" ["release/otp.tar.gz"] =
      .error "upload failed" := by
  refine ⟨?_, by rfl, by rfl⟩
  intro upload url assetPaths
  refine ⟨?_, rfl⟩
  simp [uploadAssets, promiseAll, find?_not_ok_map_ok]

theorem find?_append_none {α : Type} (p : α → Bool) (xs ys : List α)
    (h : xs.find? p = none) : (xs ++ ys).find? p = ys.find? p := by
  induction xs with
  | nil => rfl
  | cons x xs ih =>
    cases hp : p x with
    | true => simp [List.find?, hp] at h
    | false =>
      have h' : xs.find? p = none := by simpa [List.find?, hp] using h
      simpa [List.find?, hp] using ih h'

/-- C6: a non-404 lookup error is re-raised as an unexpected error, a 404
falls through to exactly one creation call, and two consecutive calls on
the same key return the same release id while issuing at most one
creation call in total. -/
theorem getOrCreateRelease_idempotent_and_404_fallthrough :
    (∀ e : ApiError, e.status ≠ some 404 →
      getRelease (.error e) = .error (.unexpected e)) ∧
    (∀ (st : RegistryState) (k : String × String × String),
      st.releases.find? (fun r => decide (r.1 = k)) = none →
      getOrCreateRelease st k =
        .ok ((st.nextId, "upload-url"), (createReleaseApi st k).2, 1)) ∧
    (∀ (st : RegistryState) (k : String × String × String)
        (r1 r2 : Nat × String) (st1 st2 : RegistryState) (c1 c2 : Nat),
      getOrCreateRelease st k = .ok (r1, st1, c1) →
      getOrCreateRelease st1 k = .ok (r2, st2, c2) →
      r1.1 = r2.1 ∧ c1 + c2 ≤ 1) := by
  refine ⟨?_, ?_, ?_⟩
  · intro e he
    simp [getRelease, he]
  · intro st k h
    simp [getOrCreateRelease, getRelease, lookupByTag, createReleaseApi, h]
  · intro st k r1 r2 st1 st2 c1 c2 h1 h2
    cases hf : st.releases.find? (fun r => decide (r.1 = k)) with
    | some rec =>
      have e1 : getOrCreateRelease st k = .ok (rec.2, st, 0) := by
        simp [getOrCreateRelease, getRelease, lookupByTag, hf]
      rw [e1] at h1
      simp only [Except.ok.injEq, Prod.mk.injEq] at h1
      obtain ⟨h1a, h1b, h1c⟩ := h1
      subst h1a; subst h1b; subst h1c
      rw [e1] at h2
      simp only [Except.ok.injEq, Prod.mk.injEq] at h2
      obtain ⟨h2a, h2b, h2c⟩ := h2
      subst h2a; subst h2c
      exact ⟨rfl, by decide⟩
    | none =>
      have e1 : getOrCreateRelease st k =
          .ok ((st.nextId, "upload-url"),
            { releases := st.releases ++ [(k, (st.nextId, "upload-url"))],
              nextId := st.nextId + 1 }, 1) := by
        simp [getOrCreateRelease, getRelease, lookupByTag, createReleaseApi, hf]
      rw [e1] at h1
      simp only [Except.ok.injEq, Prod.mk.injEq] at h1
      obtain ⟨h1a, h1b, h1c⟩ := h1
      subst h1a; subst h1b; subst h1c
      have hfind2 : (st.releases ++ [(k, (st.nextId, "upload-url"))]).find?
          (fun r => decide (r.1 = k)) = some (k, (st.nextId, "upload-url")) := by
        rw [find?_append_none _ _ _ hf]
        simp [List.find?]
      have e2 : getOrCreateRelease
          { releases := st.releases ++ [(k, (st.nextId, "upload-url"))],
            nextId := st.nextId + 1 } k =
          .ok ((st.nextId, "upload-url"),
            { releases := st.releases ++ [(k, (st.nextId, "upload-url"))],
              nextId := st.nextId + 1 }, 0) := by
        simp [getOrCreateRelease, getRelease, lookupByTag, hfind2]
      rw [e2] at h2
      simp only [Except.ok.injEq, Prod.mk.injEq] at h2
      obtain ⟨h2a, h2b, h2c⟩ := h2
      subst h2a; subst h2c
      exact ⟨rfl, by decide⟩

/-- Evaluation of the C6 theorem: a 500 lookup error is re-raised, an
empty registry leads to one creation, and a repeated call returns the
same id with one creation in total. -/
theorem getOrCreateRelease_idempotent_and_404_fallthrough_witness :
    getRelease (.error ⟨some 500⟩) = .error (.unexpected ⟨some 500⟩) ∧
    getOrCreateRelease ⟨[], 0⟩ ("o", "r", "OTP-23.0") =
      .ok ((0, "upload-url"),
        ⟨[(("o", "r", "OTP-23.0"), (0, "upload-url"))], 1⟩, 1) ∧
    (((0 : Nat), "upload-url").1 = ((0 : Nat), "upload-url").1 ∧ 1 + 0 ≤ 1) := by
  refine ⟨getOrCreateRelease_idempotent_and_404_fallthrough.1 ⟨some 500⟩ (by decide), ?_, ?_⟩
  · exact getOrCreateRelease_idempotent_and_404_fallthrough.2.1 ⟨[], 0⟩
      ("o", "r", "OTP-23.0") rfl
  · exact getOrCreateRelease_idempotent_and_404_fallthrough.2.2 ⟨[], 0⟩
      ("o", "r", "OTP-23.0") (0, "upload-url") (0, "upload-url")
      ⟨[(("o", "r", "OTP-23.0"), (0, "upload-url"))], 1⟩
      ⟨[(("o", "r", "OTP-23.0"), (0, "upload-url"))], 1⟩ 1 0 rfl rfl

theorem find?_eq_some_decomp {α : Type} (p : α → Bool) (l : List α) (a : α) :
    l.find? p = some a ↔
      ∃ l1 l2, l = l1 ++ a :: l2 ∧ p a = true ∧ ∀ b ∈ l1, p b = false := by
  induction l with
  | nil =>
    constructor
    · intro h; simp [List.find?] at h
    · rintro ⟨l1, l2, heq, _, _⟩
      exact absurd heq (by simp)
  | cons x xs ih =>
    constructor
    · intro h
      cases hp : p x with
      | true =>
        have hax : x = a := by
          have hsome : some x = some a := by rw [← h]; simp [List.find?, hp]
          exact Option.some.inj hsome
        subst hax
        exact ⟨[], xs, rfl, hp, by intro b hb; cases hb⟩
      | false =>
        have h' : xs.find? p = some a := by rw [← h]; simp [List.find?, hp]
        obtain ⟨l1, l2, heq, hpa, hall⟩ := ih.1 h'
        refine ⟨x :: l1, l2, by rw [heq]; rfl, hpa, ?_⟩
        intro b hb
        rcases List.mem_cons.mp hb with hb | hb
        · subst hb; exact hp
        · exact hall b hb
    · rintro ⟨l1, l2, heq, hpa, hall⟩
      cases l1 with
      | nil =>
        simp only [List.nil_append, List.cons.injEq] at heq
        obtain ⟨h1, h2⟩ := heq
        subst h1; subst h2
        simp [List.find?, hpa]
      | cons y ys =>
        rw [List.cons_append] at heq
        injection heq with hxy htl
        have hpx : p x = false := by rw [hxy]; exact hall y (by simp)
        have hrec : xs.find? p = some a :=
          ih.2 ⟨ys, l2, htl, hpa, fun b hb => hall b (by simp [hb])⟩
        simp [List.find?, hpx, hrec]

/-- C7: the asset lookup returns the id of the first asset whose name is
an exact, case-sensitive match and none when no name matches; and when
the lookup hands the orchestrator an existing (truthy) asset id, the
loop body stops after the lookup: no patch, build, packaging or upload
stage runs for that version. -/
theorem getAsset_first_exact_match_and_skip_guard :
    (∀ (assets : List (Nat × String)) (name : String) (id : Nat),
      getAsset assets name = some id ↔
        ∃ l1 a l2, assets = l1 ++ a :: l2 ∧ a.2 = name ∧ a.1 = id ∧
          ∀ b ∈ l1, b.2 ≠ name) ∧
    (∀ (assets : List (Nat × String)) (name : String),
      getAsset assets name = none ↔ ∀ a ∈ assets, a.2 ≠ name) ∧
    getAsset [(1, "A.tar.gz")] "a.tar.gz" = none ∧
    (∀ (env : PipelineEnv) (assetName v : String) (releaseId : Nat)
        (uploadUrl : String) (assetId : Nat),
      env.setupR v = .ok () →
      env.releaseR v = .ok (releaseId, uploadUrl) →
      env.assetR releaseId assetName = .ok (some assetId) →
      assetId ≠ 0 →
      processVersion env assetName v =
        { result := .ok .skipped, trace := [.setup, .release, .assetLookup] }) := by
  refine ⟨?_, ?_, by decide, ?_⟩
  · intro assets name id
    unfold getAsset
    rw [Option.map_eq_some']
    constructor
    · rintro ⟨a, hfind, hid⟩
      obtain ⟨l1, l2, heq, hpa, hall⟩ := (find?_eq_some_decomp _ assets a).1 hfind
      exact ⟨l1, a, l2, heq, of_decide_eq_true hpa, hid,
        fun b hb => of_decide_eq_false (hall b hb)⟩
    · rintro ⟨l1, a, l2, heq, hname, hid, hall⟩
      exact ⟨a, (find?_eq_some_decomp _ assets a).2
        ⟨l1, l2, heq, decide_eq_true hname, fun b hb => decide_eq_false (hall b hb)⟩, hid⟩
  · intro assets name
    simp [getAsset, List.find?_eq_none]
  · intro env assetName v releaseId uploadUrl assetId hs hr ha hid
    have hdec : jsFalsyNatOpt (some assetId) = false := by
      simp [jsFalsyNatOpt, hid]
    simp [processVersion, hs, hr, ha, hdec]

/-- Evaluation of the C7 skip guard on an environment whose asset lookup
finds asset id 7. -/
theorem getAsset_first_exact_match_and_skip_guard_witness :
    processVersion envSkip "a.tar.gz" "OTP-23.0" =
      { result := .ok .skipped, trace := [.setup, .release, .assetLookup] } :=
  getAsset_first_exact_match_and_skip_guard.2.2.2 envSkip "a.tar.gz" "OTP-23.0" 5
    "upload-url" 7 rfl rfl rfl (by decide)

/-- C8: archive fails exactly when the release directory does not contain
exactly one top-level subdirectory (and then runs no tar), and with
exactly one subdirectory and a successful tar it returns the archive path
cwd/release/assetName, having invoked tar from inside the subdirectory on
the path . so that the contents, not the subdirectory itself, are
archived. -/
theorem archive_single_subdirectory_contract :
    (∀ (cwd0 : String) (entries : List Dirent) (assetName : String) (tarOk : Bool),
      (subDirNames entries).length ≠ 1 →
      exceptIsOk (archive cwd0 entries tarOk assetName).result = false ∧
      (archive cwd0 entries tarOk assetName).tarCalls = []) ∧
    (∀ (cwd0 : String) (entries : List Dirent) (assetName : String),
      (subDirNames entries).length = 1 →
      (archive cwd0 entries true assetName).result =
        .ok (pathJoinJS (pathJoinJS cwd0 "release") assetName) ∧
      (archive cwd0 entries true assetName).tarCalls =
        [(pathJoinJS (pathJoinJS cwd0 "release") ((subDirNames entries).headD ""),
          pathJoinJS (pathJoinJS cwd0 "release") assetName, ".")]) ∧
    (∀ (cwd0 : String) (entries : List Dirent) (assetName : String),
      exceptIsOk (archive cwd0 entries true assetName).result = true ↔
        (subDirNames entries).length = 1) := by
  refine ⟨?_, ?_, ?_⟩
  · intro cwd0 entries assetName tarOk h
    cases hn : (subDirNames entries).length with
    | zero => simp [archive, hn, exceptIsOk]
    | succ n =>
      cases n with
      | zero => omega
      | succ m =>
        have hge : ¬((subDirNames entries).length < 1) := by omega
        have hlt : 1 < (subDirNames entries).length := by omega
        simp [archive, hge, hlt, exceptIsOk]
  · intro cwd0 entries assetName h
    have hge : ¬((subDirNames entries).length < 1) := by omega
    have hlt : ¬(1 < (subDirNames entries).length) := by omega
    simp [archive, hge, hlt]
  · intro cwd0 entries assetName
    constructor
    · intro h
      cases hn : (subDirNames entries).length with
      | zero => simp [archive, hn, exceptIsOk] at h
      | succ n =>
        cases n with
        | zero => omega
        | succ m =>
          have hge : ¬((subDirNames entries).length < 1) := by omega
          have hlt : 1 < (subDirNames entries).length := by omega
          simp [archive, hge, hlt, exceptIsOk] at h
    · intro h
      have hge : ¬((subDirNames entries).length < 1) := by omega
      have hlt : ¬(1 < (subDirNames entries).length) := by omega
      simp [archive, hge, hlt, exceptIsOk]

/-- Evaluation of the C8 contract on a release directory holding one
subdirectory and one plain file. -/
theorem archive_single_subdirectory_contract_witness :
    (archive "/work" [⟨"sub", true⟩, ⟨"notes.txt", false⟩] true "a.tar.gz").result =
      .ok (pathJoinJS (pathJoinJS "/work" "release") "a.tar.gz") ∧
    (archive "/work" [⟨"sub", true⟩, ⟨"notes.txt", false⟩] true "a.tar.gz").tarCalls =
      [(pathJoinJS (pathJoinJS "/work" "release")
          ((subDirNames [⟨"sub", true⟩, ⟨"notes.txt", false⟩]).headD ""),
        pathJoinJS (pathJoinJS "/work" "release") "a.tar.gz", ".")] :=
  archive_single_subdirectory_contract.2.1 "/work" [⟨"sub", true⟩, ⟨"notes.txt", false⟩]
    "a.tar.gz" (by decide)

theorem pathJoinJS_length (a b : String) (ha : a ≠ "") :
    (pathJoinJS a b).length = a.length + 1 + b.length := by
  unfold pathJoinJS
  rw [if_neg ha, String.length_append, String.length_append]
  rfl

theorem pathJoin_release_ne (cwd0 s : String) :
    pathJoinJS (pathJoinJS cwd0 "release") s ≠ cwd0 := by
  have h7 : ("release" : String).length = 7 := rfl
  have h0 : ("" : String).length = 0 := rfl
  intro heq
  have hlen := congrArg String.length heq
  by_cases hc : cwd0 = ""
  · subst hc
    have e1 : pathJoinJS "" "release" = "release" := rfl
    rw [e1, pathJoinJS_length "release" s (by decide), h7, h0] at hlen
    omega
  · have hne : pathJoinJS cwd0 "release" ≠ "" := by
      intro hz
      have hzl := congrArg String.length hz
      rw [pathJoinJS_length cwd0 "release" hc, h7, h0] at hzl
      omega
    rw [pathJoinJS_length _ s hne, pathJoinJS_length cwd0 "release" hc, h7] at hlen
    omega

/-- C10: with a single subdirectory, the working directory saved on entry
is restored on the success path, while a tar failure propagates with the
process left inside the release subdirectory: the final working directory
is the subdirectory, not the saved one. -/
theorem archive_workdir_restored_only_on_success :
    (∀ (cwd0 : String) (entries : List Dirent) (assetName : String),
      (subDirNames entries).length = 1 →
      (archive cwd0 entries true assetName).finalCwd = cwd0) ∧
    (∀ (cwd0 : String) (entries : List Dirent) (assetName : String),
      (subDirNames entries).length = 1 →
      (archive cwd0 entries false assetName).result = .error .tarFailed ∧
      (archive cwd0 entries false assetName).finalCwd =
        pathJoinJS (pathJoinJS cwd0 "release") ((subDirNames entries).headD "") ∧
      (archive cwd0 entries false assetName).finalCwd ≠ cwd0) := by
  constructor
  · intro cwd0 entries assetName h
    have hge : ¬((subDirNames entries).length < 1) := by omega
    have hlt : ¬(1 < (subDirNames entries).length) := by omega
    simp [archive, hge, hlt]
  · intro cwd0 entries assetName h
    have hge : ¬((subDirNames entries).length < 1) := by omega
    have hlt : ¬(1 < (subDirNames entries).length) := by omega
    refine ⟨?_, ?_, ?_⟩ <;> simp [archive, hge, hlt, pathJoin_release_ne]

/-- Evaluation of the C10 theorem on a release directory with the single
subdirectory sub. -/
theorem archive_workdir_restored_only_on_success_witness :
    (archive "/work" [⟨"sub", true⟩] true "a.tar.gz").finalCwd = "/work" ∧
    ((archive "/work" [⟨"sub", true⟩] false "a.tar.gz").result = .error .tarFailed ∧
     (archive "/work" [⟨"sub", true⟩] false "a.tar.gz").finalCwd =
       pathJoinJS (pathJoinJS "/work" "release") ((subDirNames [⟨"sub", true⟩]).headD "") ∧
     (archive "/work" [⟨"sub", true⟩] false "a.tar.gz").finalCwd ≠ "/work") :=
  ⟨archive_workdir_restored_only_on_success.1 "/work" [⟨"sub", true⟩] "a.tar.gz" (by decide),
   archive_workdir_restored_only_on_success.2 "/work" [⟨"sub", true⟩] "a.tar.gz" (by decide)⟩

/-- C9 counterexample: when the digest tool is invoked successfully but
produces no output line, sha256 does not fail: it writes the empty string
to the sidecar file and returns the sidecar path as a success. -/
theorem sha256_empty_output_still_succeeds :
    (sha256 "release/otp.tar.gz" (.ok "")).result = .ok "release/otp.sha256.txt" ∧
    (sha256 "release/otp.tar.gz" (.ok "")).written =
      [("release/otp.sha256.txt", "")] := by
  constructor <;> rfl

theorem takeWhile_append_space (l1 l2 : List Char) (h : ∀ c ∈ l1, c ≠ ' ') :
    (l1 ++ ' ' :: l2).takeWhile (fun c => c != ' ') = l1 := by
  induction l1 with
  | nil => simp [List.takeWhile]
  | cons c cs ih =>
    have hc : c ≠ ' ' := h c (by simp)
    have hcs : ∀ x ∈ cs, x ≠ ' ' := fun x hx => h x (by simp [hx])
    have hcb : (c != ' ') = true := by simp [hc]
    simp [List.takeWhile, hcb, ih hcs]

theorem mk_toList (s : String) : String.mk s.toList = s := by
  cases s
  rfl

/-- C9 amended: the sidecar file is the archive base name with its .tar.gz
suffix replaced by .sha256.txt, in the archive directory; its content is
the part of the digest tool output before the first space, which for a
shasum line is the whole hex digest; a failure to invoke the tool
propagates to the caller; but a successful invocation with no output line
is not an error: the empty string is written and the path returned. -/
theorem sha256_sidecar_first_token (hex fname : String)
    (hhex : ∀ c ∈ hex.toList, c ≠ ' ') :
    (sha256 "release/otp.tar.gz" (.ok (hex ++ " " ++ fname))).result =
      .ok "release/otp.sha256.txt" ∧
    (sha256 "release/otp.tar.gz" (.ok (hex ++ " " ++ fname))).written =
      [("release/otp.sha256.txt", hex)] ∧
    (∀ e : String, (sha256 "release/otp.tar.gz" (.error e)).result = .error e ∧
      (sha256 "release/otp.tar.gz" (.error e)).written = []) ∧
    (sha256 "release/otp.tar.gz" (.ok "")).result = .ok "release/otp.sha256.txt" := by
  have hlist : (hex ++ " " ++ fname).toList = hex.toList ++ ' ' :: fname.toList := by
    simp [String.toList, String.data_append]
  have htok : firstSpaceToken (hex ++ " " ++ fname) = hex := by
    unfold firstSpaceToken
    rw [hlist, takeWhile_append_space hex.toList fname.toList hhex, mk_toList]
  refine ⟨rfl, ?_, fun e => ⟨rfl, rfl⟩, rfl⟩
  show [("release/otp.sha256.txt", firstSpaceToken (hex ++ " " ++ fname))] =
    [("release/otp.sha256.txt", hex)]
  rw [htok]

/-- Evaluation of the C9 theorem on the shasum output line for digest ab12. -/
theorem sha256_sidecar_first_token_witness :
    (sha256 "release/otp.tar.gz" (.ok ("ab12" ++ " " ++ "otp.tar.gz"))).result =
      .ok "release/otp.sha256.txt" ∧
    (sha256 "release/otp.tar.gz" (.ok ("ab12" ++ " " ++ "otp.tar.gz"))).written =
      [("release/otp.sha256.txt", "ab12")] ∧
    (∀ e : String, (sha256 "release/otp.tar.gz" (.error e)).result = .error e ∧
      (sha256 "release/otp.tar.gz" (.error e)).written = []) ∧
    (sha256 "release/otp.tar.gz" (.ok "")).result = .ok "release/otp.sha256.txt" :=
  sha256_sidecar_first_token "ab12" "otp.tar.gz" (by decide)

end OtpKuroko

